import Mathlib

/-!
Verification of the appliance image-availability reconciliation core of the
GNS3 GUI client, embedded from `src/gns3/dialogs/appliance_wizard.py`, and of
the QEMU VM template loader embedded from `src/gns3/modules/qemu/__init__.py`.

Python dictionaries holding appliance data are embedded as Lean structures
whose fields are the keys the code reads; the settings dictionaries of the
QEMU module, whose key set is open, are embedded as association lists.
Status strings are kept verbatim ("Available", "Missing file",
"Missing files"); the spec's enum labels Available/Missing/MissingFiles
name exactly these strings.
-/

set_option autoImplicit false

namespace GNS3

/-- An image record of an appliance version, as read by the wizard:
`image["filename"]`, `image["md5sum"]`, `image["filesize"]`,
`image["version"]`, optional `image["direct_download_url"]` /
`image["download_url"]`, and the mutable `image["status"]`. -/
structure Image where
  filename : String
  md5sum : String
  filesize : Nat
  version : String
  direct_download_url : Option String := none
  download_url : Option String := none
  status : String := "Unknown"
deriving Repr, DecidableEq

/-- A version record: `version["name"]` and `version["images"].values()`
in iteration order. -/
structure Version where
  name : String
  images : List Image
deriving Repr, DecidableEq

/-- The appliance manifest: product metadata and `appliance["versions"]`. -/
structure Appliance where
  name : String
  product_name : String
  category : String
  versions : List Version
deriving Repr, DecidableEq

/-- A file on disk as the Registry sees it: a name and a byte content
(bytes as `Nat`s); its size is the content length, its checksum is an
abstract digest of the content. -/
structure RegFile where
  name : String
  content : List Nat
deriving Repr, DecidableEq

/-- The Registry's state: the files of each configured search directory. -/
structure Registry where
  directories : List (List RegFile)
deriving Repr, DecidableEq

/-- Modelled from the spec: `Registry.search_image_file` lives in
`gns3/registry/registry.py`, which is not under src/ (only its caller
`_resfreshDialogWorker` is). Spec §4.1: "locate(filename, checksum, size)
-> bool. Given a set of candidate directories, the Registry must determine
whether a file exists whose name matches `filename` AND whose content
checksum matches `checksum` AND whose byte length matches `size`."
The digest function `md5` is a parameter. -/
def search_image_file (md5 : List Nat → String) (r : Registry)
    (filename md5sum : String) (filesize : Nat) : Bool :=
  r.directories.any fun dir => dir.any fun f =>
    f.name == filename && md5 f.content == md5sum && f.content.length == filesize

/-- The body of the inner loop of `ApplianceWizard._resfreshDialogWorker`
(appliance_wizard.py lines 190-194): set `image["status"]` to "Available"
when `self._registry.search_image_file(image["filename"], image["md5sum"],
image["filesize"])` holds, else to "Missing file". The registry lookup is
abstracted as the oracle `locate`. -/
def refreshImage (locate : String → String → Nat → Bool) (image : Image) : Image :=
  if locate image.filename image.md5sum image.filesize then
    { image with status := "Available" }
  else
    { image with status := "Missing file" }

/-- The body of the outer loop of `_resfreshDialogWorker`: refresh the
status of every image of one version. -/
def refreshVersion (locate : String → String → Nat → Bool) (v : Version) : Version :=
  { v with images := v.images.map (refreshImage locate) }

/-- `ApplianceWizard._resfreshDialogWorker` (appliance_wizard.py lines
185-194): for each version of the appliance and each image of the version,
recompute the image's status from the registry lookup. Mutation in place is
embedded as rebuilding the manifest. -/
def reconcile (locate : String → String → Nat → Bool) (a : Appliance) : Appliance :=
  { a with versions := a.versions.map (refreshVersion locate) }

/-- `reconcile` with the spec-modelled Registry plugged in as the oracle. -/
def reconcileWithRegistry (md5 : List Nat → String) (r : Registry) (a : Appliance) : Appliance :=
  reconcile (search_image_file md5 r) a

/-- The aggregate status computed by `ApplianceWizard._refreshVersions`
(appliance_wizard.py lines 152-155): `status = "Available"`, then for each
image, `if image["status"] == "Missing file": status = "Missing files"`. -/
def versionStatus (v : Version) : String :=
  v.images.foldl
    (fun status image => if image.status == "Missing file" then "Missing files" else status)
    "Available"

/-- The aggregate size computed by `ApplianceWizard._refreshVersions`
(appliance_wizard.py lines 151, 157): `size = 0`, then for each image
`size += image["filesize"]`. -/
def versionSize (v : Version) : Nat :=
  v.images.foldl (fun size image => size + image.filesize) 0

/-- Error raised by the installability query for an unknown version name. -/
inductive ApplianceError where
  | versionNotFound
deriving Repr, DecidableEq

/-- Modelled from the spec: `Appliance.is_version_installable` lives in
`gns3/registry/appliance.py`, which is not under src/ (only its caller
`validateCurrentPage` is). Spec §4.3: "Looks up the named version (fails
with `NotFoundError` if no version by that name exists) and returns true
iff that version's aggregate status is `Available` (i.e., every required
image was located by the Registry in the most recent reconciliation)." -/
def is_version_installable (a : Appliance) (name : String) : Except ApplianceError Bool :=
  match a.versions.find? (fun v => v.name == name) with
  | none => .error .versionNotFound
  | some v => .ok (v.images.all (fun i => i.status == "Available"))

/-- Rejection result of the import admission check. -/
inductive ImportError where
  | checksumMismatch
deriving Repr, DecidableEq

/-- The admission check of `ApplianceWizard._importPushButtonClickedSlot`
(appliance_wizard.py lines 238-244): compute the checksum of the chosen
file (`Image(path).md5sum`); if it differs from `disk["md5sum"]`, warn
("This is not the correct image file.") and return without importing;
otherwise hand the file to `image.copy(...)`. -/
def acceptImport (md5 : List Nat → String) (candidate : RegFile) (disk : Image) :
    Except ImportError RegFile :=
  if md5 candidate.content ≠ disk.md5sum then .error .checksumMismatch
  else .ok candidate

/-- The URL opened by `ApplianceWizard._downloadPushButtonClickedSlot`
(appliance_wizard.py lines 219-223): `if "direct_download_url" in data:`
open `data["direct_download_url"]`, `else` open `data["download_url"]`.
`none` is the KeyError case where neither key is present. -/
def openedDownloadUrl (image : Image) : Option String :=
  match image.direct_download_url with
  | some url => some url
  | none => image.download_url

/-! Embedding of `Qemu._loadQemuVMs` (src/gns3/modules/qemu/__init__.py,
lines 64-84). Settings dictionaries are embedded as association lists of
string keys and string values; `get` finds the first binding. -/

/-- A Python dictionary of string keys and values, as an association list;
observation is through `dictGet`, which takes the first binding of a key. -/
abbrev Dict := List (String × String)

/-- `d.get(k)`: `some v` when `k` is bound, else `none`. -/
def dictGet (d : Dict) (k : String) : Option String :=
  (d.find? (fun p => p.1 == k)).map (fun p => p.2)

/-- `base.copy(); copy.update(upd)`, observed through `dictGet`: bindings of
`upd` shadow bindings of `base`. -/
def dictUpdate (base upd : Dict) : Dict :=
  upd ++ base

/-- `d[k] = v`, observed through `dictGet`. -/
def dictSet (d : Dict) (k v : String) : Dict :=
  (k, v) :: d

/-- Python truthiness of `vm.get(key)`: `None` and the empty string are
falsy. -/
def truthy : Option String → Bool
  | none => false
  | some s => s != ""

/-- Python's string interpolation of a possibly-missing value: `None`
prints as "None". -/
def pyStr : Option String → String
  | none => "None"
  | some s => s

/-- `"{server}:{name}".format(server=vm.get("server"), name=vm.get("name"))`
(qemu/__init__.py line 75). -/
def vmKey (vm : Dict) : String :=
  pyStr (dictGet vm "server") ++ ":" ++ pyStr (dictGet vm "name")

/-- Lines 78-83 of qemu/__init__.py: `vm_settings = QEMU_VM_SETTINGS.copy();
vm_settings.update(vm)`, then the backward-compatibility symbol fixup. The
fixup branch runs only when `"symbol" not in vm_settings`, and its first
statement evaluates `vm_settings["symbol"]` eagerly as the default argument
of `.get`, which then raises KeyError; the raise is embedded as `none`. -/
def mkVmSettings (defaults vm : Dict) : Option Dict :=
  let s := dictUpdate defaults vm
  if (dictGet s "symbol").isSome then
    some s
  else do
    let cur ← dictGet s "symbol"
    let sym := (dictGet s "default_symbol").getD cur
    let sym := if sym.endsWith "normal.svg" then sym.dropRight 11 ++ ".svg" else sym
    some (dictSet s "symbol" sym)

/-- One iteration of the `for vm in settings[...]["vms"]` loop of
`_loadQemuVMs` (lines 72-84): skip when the key is already present or the
name or server is falsy, else insert the merged settings under the key. -/
def loadQemuVMsStep (defaults : Dict) (acc : List (String × Dict)) (vm : Dict) :
    Option (List (String × Dict)) :=
  let name := dictGet vm "name"
  let server := dictGet vm "server"
  let key := vmKey vm
  if acc.any (fun p => p.1 == key) || !truthy name || !truthy server then
    some acc
  else do
    let s ← mkVmSettings defaults vm
    some (acc ++ [(key, s)])

/-- `Qemu._loadQemuVMs` (lines 64-84): rebuild `self._qemu_vms` from the
`"vms"` list of the settings section. The insertion-ordered Python dict is
embedded as a list of key-settings pairs in insertion order; `defaults` is
the `QEMU_VM_SETTINGS` template (its module is not under src/, so it is a
parameter). `none` embeds the KeyError raise of the symbol fixup. -/
def loadQemuVMs (defaults : Dict) (vms : List Dict) : Option (List (String × Dict)) :=
  vms.foldlM (loadQemuVMsStep defaults) []

/-- The eligibility test of the `_loadQemuVMs` loop, as one predicate:
`not (not name or not server)` of lines 76-77. -/
def vmEligible (vm : Dict) : Bool :=
  truthy (dictGet vm "name") && truthy (dictGet vm "server")

/-- The first entry of the `"vms"` list that is eligible and carries the
string key `k`. -/
def firstVmWithKey (vms : List Dict) (k : String) : Option Dict :=
  vms.find? (fun v => vmEligible v && (vmKey v == k))

/-- An image with its derived status field blanked, for stating that
reconciliation touches nothing but the status. -/
def eraseStatus (i : Image) : Image :=
  { i with status := "" }

/-! ### Concrete fixtures (used by witnesses and counterexamples) -/

/-- A toy injective-enough digest standing in for MD5; `search_image_file`,
`reconcile` and `acceptImport` are parametric in the digest, so any
computable function exercises them. -/
def md5c : List Nat → String :=
  fun content => "h" ++ toString (content.foldl (fun a b => 2 * a + b) 1)

/-- Spec §8 scenario 6, Image A: present on disk. -/
def imageA : Image :=
  { filename := "disk.qcow2", md5sum := md5c [1, 2], filesize := 2, version := "1.0" }

/-- Spec §8 scenario 6, Image B: absent from disk. -/
def imageB : Image :=
  { filename := "cfg.img", md5sum := md5c [3], filesize := 1, version := "1.0" }

/-- Spec §8 scenario 6, version "1.0" with images A and B. -/
def appV10 : Version :=
  { name := "1.0", images := [imageA, imageB] }

/-- Spec §8 scenario 6 appliance. -/
def app0 : Appliance :=
  { name := "Test", product_name := "Test appliance", category := "router",
    versions := [appV10] }

/-- A registry whose single directory holds only a file matching image A. -/
def reg0 : Registry :=
  { directories := [[{ name := "disk.qcow2", content := [1, 2] }]] }

/-- The lookup oracle of `reg0` under the toy digest. -/
def locate0 : String → String → Nat → Bool :=
  search_image_file md5c reg0

/-- Version "1.0" of `app0` after reconciliation against `reg0`. -/
def v10r : Version :=
  refreshVersion locate0 appV10

/-! ### Helper lemmas on reconciliation -/

theorem refreshImage_eq (locate : String → String → Nat → Bool) (i : Image) :
    refreshImage locate i =
      { i with status :=
          if locate i.filename i.md5sum i.filesize then "Available" else "Missing file" } := by
  unfold refreshImage
  split <;> simp_all

theorem mem_reconcile (locate : String → String → Nat → Bool) (a : Appliance)
    (v : Version) (hv : v ∈ (reconcile locate a).versions) :
    ∃ v0 ∈ a.versions, v = refreshVersion locate v0 := by
  simp only [reconcile] at hv
  rcases List.mem_map.1 hv with ⟨v0, h0, h⟩
  exact ⟨v0, h0, h.symm⟩

theorem mem_reconcile_images (locate : String → String → Nat → Bool) (a : Appliance)
    (v : Version) (i : Image)
    (hv : v ∈ (reconcile locate a).versions) (hi : i ∈ v.images) :
    ∃ i0, i = refreshImage locate i0 := by
  rcases mem_reconcile locate a v hv with ⟨v0, _, rfl⟩
  simp only [refreshVersion] at hi
  rcases List.mem_map.1 hi with ⟨i0, _, h⟩
  exact ⟨i0, h.symm⟩

theorem reconcile_status_dichotomy (locate : String → String → Nat → Bool) (a : Appliance)
    (v : Version) (i : Image)
    (hv : v ∈ (reconcile locate a).versions) (hi : i ∈ v.images) :
    i.status = "Available" ∨ i.status = "Missing file" := by
  rcases mem_reconcile_images locate a v i hv hi with ⟨i0, rfl⟩
  rw [refreshImage_eq]
  by_cases h : locate i0.filename i0.md5sum i0.filesize <;> simp [h]

/-- C1: after reconciliation, each image's status field equals "Available"
exactly when the registry lookup for that image's (filename, md5sum,
filesize) triple succeeds and "Missing file" (the spec's `Missing`)
otherwise; every image carries one of those two statuses. -/
theorem C1_reconcile_image_status (locate : String → String → Nat → Bool)
    (a : Appliance) (v : Version) (i : Image)
    (hv : v ∈ (reconcile locate a).versions) (hi : i ∈ v.images) :
    i.status =
      (if locate i.filename i.md5sum i.filesize then "Available" else "Missing file")
    ∧ (i.status = "Available" ∨ i.status = "Missing file") := by
  refine ⟨?_, reconcile_status_dichotomy locate a v i hv hi⟩
  rcases mem_reconcile_images locate a v i hv hi with ⟨i0, rfl⟩
  rw [refreshImage_eq]

/-- Witness for C1 at the reconciled image A of the scenario appliance. -/
theorem C1_reconcile_image_status_witness :
    (refreshImage locate0 imageA).status =
      (if locate0 (refreshImage locate0 imageA).filename
          (refreshImage locate0 imageA).md5sum (refreshImage locate0 imageA).filesize
       then "Available" else "Missing file")
    ∧ ((refreshImage locate0 imageA).status = "Available"
        ∨ (refreshImage locate0 imageA).status = "Missing file") :=
  C1_reconcile_image_status locate0 app0 v10r (refreshImage locate0 imageA)
    (by decide) (by decide)

/-! ### Aggregate version status (C2) -/

theorem status_foldl (l : List Image) (s : String) :
    l.foldl
      (fun status image => if image.status == "Missing file" then "Missing files" else status) s
      = if l.any (fun i => i.status == "Missing file") then "Missing files" else s := by
  induction l generalizing s with
  | nil => simp
  | cons i l ih =>
    rw [List.foldl_cons, List.any_cons, ih]
    by_cases h : i.status == "Missing file" <;> simp [h]

theorem versionStatus_available_iff (locate : String → String → Nat → Bool)
    (a : Appliance) (v : Version) (hv : v ∈ (reconcile locate a).versions) :
    versionStatus v = "Available" ↔ v.images.all (fun i => i.status == "Available") = true := by
  have hd : ∀ i ∈ v.images, i.status = "Available" ∨ i.status = "Missing file" :=
    fun i hi => reconcile_status_dichotomy locate a v i hv hi
  rw [versionStatus, status_foldl]
  by_cases h : v.images.any (fun i => i.status == "Missing file")
  · rw [if_pos h]
    constructor
    · intro habs
      exact absurd habs (by decide)
    · intro hall
      rcases List.any_eq_true.1 h with ⟨i, hi, hP⟩
      have hA := List.all_eq_true.1 hall i hi
      rw [beq_iff_eq] at hP hA
      rw [hA] at hP
      exact absurd hP (by decide)
  · rw [if_neg h]
    constructor
    · intro _
      apply List.all_eq_true.2
      intro i hi
      rcases hd i hi with h1 | h1
      · simp [h1]
      · exact absurd (List.any_eq_true.2 ⟨i, hi, by simp [h1]⟩) h
    · intro _
      rfl

/-- C2: for a reconciled version, the aggregate status computed by
`_refreshVersions` is "Available" iff every member image's status is
"Available", it is one of "Available"/"Missing files", and an empty image
list yields "Available". -/
theorem C2_version_aggregate_status (locate : String → String → Nat → Bool)
    (a : Appliance) (v : Version) (hv : v ∈ (reconcile locate a).versions) :
    (versionStatus v = "Available" ↔ v.images.all (fun i => i.status == "Available") = true)
    ∧ (versionStatus v = "Available" ∨ versionStatus v = "Missing files")
    ∧ (v.images = [] → versionStatus v = "Available") := by
  refine ⟨versionStatus_available_iff locate a v hv, ?_, ?_⟩
  · rw [versionStatus, status_foldl]
    by_cases h : v.images.any (fun i => i.status == "Missing file") <;> simp [h]
  · intro h
    simp [versionStatus, h]

/-- Witness for C2 at reconciled version "1.0" of the scenario appliance. -/
theorem C2_version_aggregate_status_witness :
    (versionStatus v10r = "Available" ↔ v10r.images.all (fun i => i.status == "Available") = true)
    ∧ (versionStatus v10r = "Available" ∨ versionStatus v10r = "Missing files")
    ∧ (v10r.images = [] → versionStatus v10r = "Available") :=
  C2_version_aggregate_status locate0 app0 v10r (by decide)

/-! ### Registry lookup (C3) -/

/-- A registry whose single directory holds two files with identical
content under the names "a" and "b". -/
def twinReg : Registry :=
  { directories := [[{ name := "a", content := [1] }, { name := "b", content := [1] }]] }

/-- C3 counterexample: in `twinReg` the lookup for ("a", digest of [1], 1)
succeeds, and changing only the filename to "b" while holding checksum and
size fixed still succeeds, refuting "changing any single one of the three
fields while holding the other two fixed turns a true match into false". -/
theorem C3_counterexample :
    search_image_file md5c twinReg "a" (md5c [1]) 1 = true
    ∧ search_image_file md5c twinReg "b" (md5c [1]) 1 = true
    ∧ ("a" : String) ≠ "b" := by
  refine ⟨by decide, by decide, by decide⟩

/-- C3 amended: the lookup returns true iff some search directory holds a
file agreeing on all three of filename, content checksum, and byte size; so
an altered triple matched by no file yields false, and a file agreeing on
only two of the three fields never makes the lookup true by itself. -/
theorem C3_search_image_file_iff (md5 : List Nat → String) (r : Registry)
    (filename md5sum : String) (filesize : Nat) :
    search_image_file md5 r filename md5sum filesize = true
      ↔ ∃ dir ∈ r.directories, ∃ f ∈ dir,
          f.name = filename ∧ md5 f.content = md5sum ∧ f.content.length = filesize := by
  simp [search_image_file, List.any_eq_true, and_assoc]

/-! ### Import admission (C4) -/

/-- C4: the import admission check rejects with a checksum mismatch exactly
when the computed digest of the candidate differs from the manifest's
declared md5sum, accepts exactly on equality, and its verdict is unchanged
by renaming the candidate (so filename and size agreement play no role). -/
theorem C4_acceptImport_spec (md5 : List Nat → String) (candidate : RegFile) (disk : Image) :
    (acceptImport md5 candidate disk = .error .checksumMismatch
      ↔ md5 candidate.content ≠ disk.md5sum)
    ∧ (acceptImport md5 candidate disk = .ok candidate
      ↔ md5 candidate.content = disk.md5sum)
    ∧ (∀ other : String,
        (acceptImport md5 { candidate with name := other } disk).isOk
          = (acceptImport md5 candidate disk).isOk) := by
  unfold acceptImport
  by_cases h : md5 candidate.content = disk.md5sum <;>
    simp [h, Except.isOk, Except.toBool]

/-! ### Idempotence of reconciliation (C5) -/

theorem refreshImage_idem (locate : String → String → Nat → Bool) (i : Image) :
    refreshImage locate (refreshImage locate i) = refreshImage locate i := by
  cases i with
  | mk filename md5sum filesize version ddu du status =>
    by_cases h : locate filename md5sum filesize <;> simp [refreshImage, h]

theorem refreshVersion_idem (locate : String → String → Nat → Bool) (v : Version) :
    refreshVersion locate (refreshVersion locate v) = refreshVersion locate v := by
  cases v with
  | mk name images =>
    simp only [refreshVersion, List.map_map]
    congr 1
    exact List.map_congr_left (fun i _ => refreshImage_idem locate i)

/-- C5: reconciliation is idempotent for a fixed registry state: running it
twice on a manifest yields the manifest produced by running it once (and,
being a pure function of the manifest and the lookup oracle, it is
deterministic). -/
theorem C5_reconcile_idempotent (locate : String → String → Nat → Bool) (a : Appliance) :
    reconcile locate (reconcile locate a) = reconcile locate a := by
  cases a with
  | mk name product_name category versions =>
    simp only [reconcile, List.map_map]
    congr 1
    exact List.map_congr_left (fun v _ => refreshVersion_idem locate v)

/-! ### Aggregate version size (C7) -/

theorem size_foldl (l : List Image) (s : Nat) :
    l.foldl (fun size image => size + image.filesize) s
      = s + (l.map (fun i => i.filesize)).sum := by
  induction l generalizing s with
  | nil => simp
  | cons i l ih => simp [ih, Nat.add_assoc]

/-- C7: for every version of a reconciled manifest, the aggregate size
computed by `_refreshVersions` equals the sum of the declared filesizes of
its member images (zero for an empty image list). -/
theorem C7_version_aggregate_size (locate : String → String → Nat → Bool)
    (a : Appliance) (v : Version) (_hv : v ∈ (reconcile locate a).versions) :
    versionSize v = (v.images.map (fun i => i.filesize)).sum := by
  rw [versionSize, size_foldl]
  simp

/-- Witness for C7 at reconciled version "1.0" of the scenario appliance. -/
theorem C7_version_aggregate_size_witness :
    versionSize v10r = (v10r.images.map (fun i => i.filesize)).sum :=
  C7_version_aggregate_size locate0 app0 v10r (by decide)

/-! ### Frame property of reconciliation (C10) -/

theorem eraseStatus_refreshImage (locate : String → String → Nat → Bool) (i : Image) :
    eraseStatus (refreshImage locate i) = eraseStatus i := by
  cases i with
  | mk filename md5sum filesize version ddu du status =>
    by_cases h : locate filename md5sum filesize <;> simp [refreshImage, eraseStatus, h]

/-- C10: reconciliation mutates only status fields: product metadata is
unchanged, and blanking every status makes the reconciled manifest's
version list (names, order, image lists, and each image's filename,
md5sum, filesize, version and download-URL fields) coincide with the
input's. -/
theorem C10_reconcile_frame (locate : String → String → Nat → Bool) (a : Appliance) :
    (reconcile locate a).name = a.name
    ∧ (reconcile locate a).product_name = a.product_name
    ∧ (reconcile locate a).category = a.category
    ∧ (reconcile locate a).versions.map (fun v => { v with images := v.images.map eraseStatus })
        = a.versions.map (fun v => { v with images := v.images.map eraseStatus }) := by
  refine ⟨rfl, rfl, rfl, ?_⟩
  simp only [reconcile, List.map_map]
  apply List.map_congr_left
  intro v _
  cases v with
  | mk name images =>
    simp only [Function.comp, refreshVersion, List.map_map]
    congr 1
    exact List.map_congr_left (fun i _ => eraseStatus_refreshImage locate i)

/-! ### Installability query (C6) -/

/-- C6: on a reconciled manifest, the installability query fails with
`versionNotFound` when no version carries the requested name, and when the
name resolves to a version it answers `ok true` exactly when that version's
aggregate status is "Available". -/
theorem C6_is_version_installable_spec (locate : String → String → Nat → Bool)
    (a : Appliance) (nm : String) :
    ((reconcile locate a).versions.all (fun v => v.name != nm) = true →
        is_version_installable (reconcile locate a) nm = .error .versionNotFound)
    ∧ (∀ v, (reconcile locate a).versions.find? (fun w => w.name == nm) = some v →
        (is_version_installable (reconcile locate a) nm = .ok true
          ↔ versionStatus v = "Available")) := by
  constructor
  · intro h
    have hnone : (reconcile locate a).versions.find? (fun v => v.name == nm) = none := by
      apply List.find?_eq_none.2
      intro v hv
      have := List.all_eq_true.1 h v hv
      simpa using this
    simp [is_version_installable, hnone]
  · intro v hfind
    have hmem : v ∈ (reconcile locate a).versions := List.mem_of_find?_eq_some hfind
    rw [versionStatus_available_iff locate a v hmem]
    simp [is_version_installable, hfind]

/-- Witness for C6: an unknown name errors; for version "1.0" the query
agrees with the aggregate status. -/
theorem C6_is_version_installable_spec_witness :
    is_version_installable (reconcile locate0 app0) "2.0" = .error .versionNotFound
    ∧ (is_version_installable (reconcile locate0 app0) "1.0" = .ok true
        ↔ versionStatus v10r = "Available") :=
  ⟨(C6_is_version_installable_spec locate0 app0 "2.0").1 (by decide),
   (C6_is_version_installable_spec locate0 app0 "1.0").2 v10r (by decide)⟩

/-! ### Download URL precedence (C8) -/

/-- C8: the download action has a fixed precedence: when the image carries
a direct_download_url, that URL is the one opened; download_url is
consulted only when direct_download_url is absent. -/
theorem C8_download_url_precedence (image : Image) :
    (∀ url, image.direct_download_url = some url → openedDownloadUrl image = some url)
    ∧ (image.direct_download_url = none → openedDownloadUrl image = image.download_url) := by
  unfold openedDownloadUrl
  constructor
  · intro url h
    rw [h]
  · intro h
    rw [h]

/-- Fixture for C8: image A annotated with both URL fields. -/
def imgDirect : Image :=
  { imageA with direct_download_url := some "http://direct", download_url := some "http://page" }

/-- Fixture for C8: image A annotated with only download_url. -/
def imgPage : Image :=
  { imageA with download_url := some "http://page" }

/-- Witness for C8 at the two concrete annotated images. -/
theorem C8_download_url_precedence_witness :
    openedDownloadUrl imgDirect = some "http://direct"
    ∧ openedDownloadUrl imgPage = imgPage.download_url :=
  ⟨(C8_download_url_precedence imgDirect).1 "http://direct" rfl,
   (C8_download_url_precedence imgPage).2 rfl⟩

/-! ### QEMU VM template loading (C9) -/

theorem dictGet_dictUpdate (defaults vm : Dict) (k : String) :
    dictGet (dictUpdate defaults vm) k = (dictGet vm k).or (dictGet defaults k) := by
  simp only [dictGet, dictUpdate, List.find?_append]
  cases vm.find? (fun p => p.1 == k) <;> simp [Option.or]

theorem mkVmSettings_eq_some (defaults vm s : Dict) :
    mkVmSettings defaults vm = some s ↔
      s = dictUpdate defaults vm
        ∧ (dictGet (dictUpdate defaults vm) "symbol").isSome = true := by
  unfold mkVmSettings
  by_cases h : (dictGet (dictUpdate defaults vm) "symbol").isSome
  · simp [h, eq_comm]
  · have hnone : dictGet (dictUpdate defaults vm) "symbol" = none :=
      Option.not_isSome_iff_eq_none.1 h
    simp [h, hnone]

theorem firstVmWithKey_append (l₁ l₂ : List Dict) (k : String) :
    firstVmWithKey (l₁ ++ l₂) k = (firstVmWithKey l₁ k).or (firstVmWithKey l₂ k) := by
  simp [firstVmWithKey, List.find?_append]

theorem firstVmWithKey_singleton (vm : Dict) (k : String) :
    firstVmWithKey [vm] k =
      if vmEligible vm && (vmKey vm == k) then some vm else none := by
  cases h : vmEligible vm && (vmKey vm == k) <;>
    simp [firstVmWithKey, List.find?_cons, h]

theorem loadQemuVMsStep_inv (defaults : Dict) (pre : List Dict) (vm : Dict)
    (acc acc' : List (String × Dict))
    (hstep : loadQemuVMsStep defaults acc vm = some acc')
    (hpw : acc.Pairwise (fun p q => p.1 ≠ q.1))
    (hpos : ∀ p ∈ acc, (firstVmWithKey pre p.1).bind (mkVmSettings defaults) = some p.2)
    (hneg : ∀ k, (∀ p ∈ acc, p.1 ≠ k) → firstVmWithKey pre k = none) :
    acc'.Pairwise (fun p q => p.1 ≠ q.1)
    ∧ (∀ p ∈ acc', (firstVmWithKey (pre ++ [vm]) p.1).bind (mkVmSettings defaults) = some p.2)
    ∧ (∀ k, (∀ p ∈ acc', p.1 ≠ k) → firstVmWithKey (pre ++ [vm]) k = none) := by
  have hkeep : ∀ p ∈ acc,
      (firstVmWithKey (pre ++ [vm]) p.1).bind (mkVmSettings defaults) = some p.2 := by
    intro p hp
    have h1 := hpos p hp
    rw [firstVmWithKey_append]
    cases hf : firstVmWithKey pre p.1 with
    | none => rw [hf] at h1; simp at h1
    | some w => rw [hf] at h1; simpa [Option.or] using h1
  simp only [loadQemuVMsStep] at hstep
  by_cases hskip : (acc.any (fun p => p.1 == vmKey vm)
      || !truthy (dictGet vm "name") || !truthy (dictGet vm "server")) = true
  · rw [if_pos hskip] at hstep
    obtain rfl : acc = acc' := Option.some.inj hstep
    refine ⟨hpw, hkeep, ?_⟩
    intro k hk
    have hcondfalse : (vmEligible vm && (vmKey vm == k)) = false := by
      rcases Bool.or_eq_true_iff.1 hskip with h1 | h1
      · rcases Bool.or_eq_true_iff.1 h1 with h2 | h2
        · rcases List.any_eq_true.1 h2 with ⟨p, hp, hpk⟩
          rw [beq_iff_eq] at hpk
          have hknot : vmKey vm ≠ k := fun he => hk p hp (hpk.trans he)
          simp [hknot]
        · simp at h2
          simp [vmEligible, h2]
      · simp at h1
        simp [vmEligible, h1]
    rw [firstVmWithKey_append, hneg k hk, Option.none_or, firstVmWithKey_singleton]
    simp [hcondfalse]
  · rw [if_neg hskip] at hstep
    rcases Option.bind_eq_some.1 hstep with ⟨s, hs, hsome⟩
    obtain rfl : acc ++ [(vmKey vm, s)] = acc' := Option.some.inj hsome
    have hnotor := hskip
    rw [Bool.or_eq_true_iff, Bool.or_eq_true_iff] at hnotor
    push_neg at hnotor
    obtain ⟨⟨hany, hname⟩, hserver⟩ := hnotor
    have heligible : vmEligible vm = true := by
      simp only [vmEligible, Bool.and_eq_true]
      exact ⟨Bool.not_not_eq.1 (by simpa using hname),
             Bool.not_not_eq.1 (by simpa using hserver)⟩
    have hfresh : ∀ p ∈ acc, p.1 ≠ vmKey vm := by
      intro p hp heq
      exact hany (List.any_eq_true.2 ⟨p, hp, beq_iff_eq.2 heq⟩)
    refine ⟨?_, ?_, ?_⟩
    · rw [List.pairwise_append]
      refine ⟨hpw, by simp, ?_⟩
      intro p hp q hq
      rw [List.mem_singleton] at hq
      subst hq
      exact hfresh p hp
    · intro p hp
      rcases List.mem_append.1 hp with hp1 | hp1
      · exact hkeep p hp1
      · rw [List.mem_singleton] at hp1
        subst hp1
        rw [firstVmWithKey_append, hneg (vmKey vm) hfresh, Option.none_or,
            firstVmWithKey_singleton, if_pos (by simp [heligible])]
        simpa using hs
    · intro k hk
      have hk' : ∀ p ∈ acc, p.1 ≠ k := fun p hp => hk p (List.mem_append_left _ hp)
      have hkey : vmKey vm ≠ k := by
        have := hk (vmKey vm, s) (List.mem_append_right _ (List.mem_singleton.2 rfl))
        simpa using this
      rw [firstVmWithKey_append, hneg k hk', Option.none_or, firstVmWithKey_singleton]
      simp [hkey]

theorem loadQemuVMs_fold_inv (defaults : Dict) (vms : List Dict) :
    ∀ (pre : List Dict) (acc m : List (String × Dict)),
      List.foldlM (loadQemuVMsStep defaults) acc vms = some m →
      acc.Pairwise (fun p q => p.1 ≠ q.1) →
      (∀ p ∈ acc, (firstVmWithKey pre p.1).bind (mkVmSettings defaults) = some p.2) →
      (∀ k, (∀ p ∈ acc, p.1 ≠ k) → firstVmWithKey pre k = none) →
      m.Pairwise (fun p q => p.1 ≠ q.1)
      ∧ ∀ p ∈ m, (firstVmWithKey (pre ++ vms) p.1).bind (mkVmSettings defaults) = some p.2 := by
  induction vms with
  | nil =>
    intro pre acc m hm hpw hpos _
    rw [List.foldlM_nil] at hm
    obtain rfl : acc = m := Option.some.inj hm
    exact ⟨hpw, by simpa using hpos⟩
  | cons vm rest ih =>
    intro pre acc m hm hpw hpos hneg
    rw [List.foldlM_cons] at hm
    cases hstep : loadQemuVMsStep defaults acc vm with
    | none => rw [hstep] at hm; simp at hm
    | some acc' =>
      rw [hstep] at hm
      simp only [Option.bind_eq_bind, Option.some_bind] at hm
      obtain ⟨hpw', hpos', hneg'⟩ :=
        loadQemuVMsStep_inv defaults pre vm acc acc' hstep hpw hpos hneg
      have hres := ih (pre ++ [vm]) acc' m hm hpw' hpos' hneg'
      refine ⟨hres.1, ?_⟩
      intro p hp
      have := hres.2 p hp
      simpa [List.append_assoc] using this

theorem truthy_iff (o : Option String) : truthy o = true ↔ ∃ s, o = some s ∧ s ≠ "" := by
  cases o <;> simp [truthy]

/-- C9: whenever `_loadQemuVMs` succeeds, the resulting template map has
pairwise-distinct keys, and each entry comes from the first input entry
bearing its key whose name and server are truthy (later duplicates are
skipped): the entry's settings hold a non-empty name and a non-empty
server, and its key is the string "server:name". -/
theorem C9_loadQemuVMs_spec (defaults : Dict) (vms : List Dict)
    (m : List (String × Dict)) (hm : loadQemuVMs defaults vms = some m) :
    m.Pairwise (fun p q => p.1 ≠ q.1)
    ∧ ∀ p ∈ m,
        (firstVmWithKey vms p.1).bind (mkVmSettings defaults) = some p.2
        ∧ (dictGet p.2 "name").getD "" ≠ ""
        ∧ (dictGet p.2 "server").getD "" ≠ ""
        ∧ p.1 = (dictGet p.2 "server").getD "" ++ ":" ++ (dictGet p.2 "name").getD "" := by
  simp only [loadQemuVMs] at hm
  have base := loadQemuVMs_fold_inv defaults vms [] [] m hm List.Pairwise.nil
    (by simp) (fun k _ => rfl)
  refine ⟨base.1, fun p hp => ?_⟩
  have hbind0 : (firstVmWithKey vms p.1).bind (mkVmSettings defaults) = some p.2 := by
    have := base.2 p hp
    simpa using this
  refine ⟨hbind0, ?_⟩
  cases hfind : firstVmWithKey vms p.1 with
  | none => rw [hfind, Option.none_bind] at hbind0; exact absurd hbind0 (by simp)
  | some vm =>
    rw [hfind, Option.some_bind] at hbind0
    have hpred := List.find?_some hfind
    rw [Bool.and_eq_true] at hpred
    obtain ⟨helig, hkeq⟩ := hpred
    rw [beq_iff_eq] at hkeq
    simp only [vmEligible, Bool.and_eq_true] at helig
    obtain ⟨n, hn_eq, hn_ne⟩ := (truthy_iff _).1 helig.1
    obtain ⟨srv, hs_eq, hs_ne⟩ := (truthy_iff _).1 helig.2
    have hset : p.2 = dictUpdate defaults vm :=
      ((mkVmSettings_eq_some defaults vm p.2).1 hbind0).1
    have hgn : dictGet p.2 "name" = some n := by
      rw [hset, dictGet_dictUpdate, hn_eq]
      rfl
    have hgs : dictGet p.2 "server" = some srv := by
      rw [hset, dictGet_dictUpdate, hs_eq]
      rfl
    refine ⟨by rw [hgn]; simpa using hn_ne, by rw [hgs]; simpa using hs_ne, ?_⟩
    rw [hgn, hgs, ← hkeq]
    simp [vmKey, pyStr, hn_eq, hs_eq]

/-- Fixture for C9: a defaults template carrying the mandatory symbol. -/
def qemuDefaults : Dict :=
  [("symbol", ":/symbols/qemu_guest.svg"), ("ram", "256")]

/-- Fixture for C9: a well-formed VM entry. -/
def vmX : Dict :=
  [("name", "vmx"), ("server", "local"), ("ram", "512")]

/-- Fixture for C9: a later duplicate of `vmX`'s key. -/
def vmXdup : Dict :=
  [("name", "vmx"), ("server", "local"), ("ram", "1024")]

/-- Fixture for C9: an entry with an empty name, which must be skipped. -/
def vmBad : Dict :=
  [("name", ""), ("server", "local")]

/-- Fixture for C9: the input list with a duplicate key and a bad entry. -/
def qemuVMs : List Dict :=
  [vmX, vmXdup, vmBad]

/-- Fixture for C9: the loaded template map expected from `qemuVMs`. -/
def qemuLoaded : List (String × Dict) :=
  [("local:vmx", dictUpdate qemuDefaults vmX)]

/-- Witness for C9 on `qemuVMs`: only the first entry with key "local:vmx"
is kept, with non-empty name and server. -/
theorem C9_loadQemuVMs_spec_witness :
    qemuLoaded.Pairwise (fun p q => p.1 ≠ q.1)
    ∧ ((firstVmWithKey qemuVMs "local:vmx").bind (mkVmSettings qemuDefaults)
          = some (dictUpdate qemuDefaults vmX)
        ∧ (dictGet (dictUpdate qemuDefaults vmX) "name").getD "" ≠ ""
        ∧ (dictGet (dictUpdate qemuDefaults vmX) "server").getD "" ≠ ""
        ∧ "local:vmx" = (dictGet (dictUpdate qemuDefaults vmX) "server").getD "" ++ ":"
            ++ (dictGet (dictUpdate qemuDefaults vmX) "name").getD "") :=
  ⟨(C9_loadQemuVMs_spec qemuDefaults qemuVMs qemuLoaded (by decide)).1,
   (C9_loadQemuVMs_spec qemuDefaults qemuVMs qemuLoaded (by decide)).2
     ("local:vmx", dictUpdate qemuDefaults vmX) (by decide)⟩

end GNS3
